import Mathlib

/-!
Verification of the bAbI data-preparation pipeline in `data_helper.py`
(repository `Recurrent-Entity-Network-EntNet`).

The Python functions `tokenize`, `parse_stories`, `get_tokenizer`,
`tokenize_stories`, `pad_stories`, `truncate_stories` and the dense-array
trim of `get_data` are embedded shallowly below.  Strings are modelled as
`List Char` (a Python `str` is a sequence of code points); a Python run
that raises an exception (`ValueError`, `KeyError`, `IndexError`,
`AssertionError`, `ZeroDivisionError`) is modelled as `Option.none`.
-/

/-- Tokens are Python strings, modelled as lists of characters. -/
abbrev Tok := List Char

/-- Characters for which Python's `str.strip()` / `str.split()` treat as
whitespace (space, tab, newline, carriage return, vertical tab, form feed). -/
def isPySpace (c : Char) : Bool :=
  c == ' ' || c == '\t' || c == '\n' || c == '\r' ||
    c == Char.ofNat 11 || c == Char.ofNat 12

/-- Python `s.strip()`: drop leading and trailing whitespace. -/
def pyStrip (l : List Char) : List Char :=
  ((l.dropWhile isPySpace).reverse.dropWhile isPySpace).reverse

/-- A regex word character (`\w` = `[a-zA-Z0-9_]`, ASCII). -/
def isWordChar (c : Char) : Bool :=
  (97 ≤ c.toNat && c.toNat ≤ 122) || (65 ≤ c.toNat && c.toNat ≤ 90) ||
    (48 ≤ c.toNat && c.toNat ≤ 57) || c == '_'

/-- Python `str.lower()` restricted to ASCII letters. -/
def lowerChar (c : Char) : Char :=
  if 65 ≤ c.toNat && c.toNat ≤ 90 then Char.ofNat (c.toNat + 32) else c

/-- Split a character list into maximal runs of characters agreeing on
`isWordChar`.  `re.split` with the capturing pattern `(\W+)?` returns
exactly these runs (plus empty boundary fragments that the caller's
truthiness filter removes). -/
def splitRuns : List Char → List (List Char)
  | [] => []
  | c :: cs =>
    match splitRuns cs with
    | [] => [[c]]
    | [] :: rs => [c] :: [] :: rs
    | (d :: r) :: rs =>
      if isWordChar c == isWordChar d then (c :: d :: r) :: rs
      else [c] :: (d :: r) :: rs

/-- `tokenize` on a character list: split on runs of non-word characters,
keep punctuation runs as tokens, strip whitespace, lowercase, and drop
fragments that are whitespace-only (`if token.strip()`). -/
def tokenizeL (l : List Char) : List Tok :=
  (splitRuns l).filterMap (fun r =>
    let t := pyStrip r
    if t.isEmpty then none else some (t.map lowerChar))

/-- `tokenize(sentence)` from `data_helper.py` line 20. -/
def tokenize (s : String) : List Tok := tokenizeL s.data

/-- C6: `tokenize "Mary went, to? the hall"` yields exactly
`["mary","went",",","to","?","the","hall"]` (punctuation runs kept as
tokens, all tokens lowercased and whitespace-stripped, whitespace-only
fragments dropped), and `tokenize ""` yields the empty sequence. -/
theorem tokenize_example_and_empty :
    tokenize "Mary went, to? the hall" =
      ["mary".data, "went".data, ",".data, "to".data, "?".data,
        "the".data, "hall".data] ∧
    tokenize "" = [] := by
  decide

/-- Python `line.split(sep, 1)` for a single-character separator: split at
the first occurrence; `none` models the `ValueError` of unpacking when the
separator is absent. -/
def splitFirst (sep : Char) : List Char → Option (List Char × List Char)
  | [] => none
  | c :: cs =>
    if c == sep then some ([], cs)
    else (splitFirst sep cs).map (fun p => (c :: p.1, p.2))

/-- Python `line.split(sep)` for a single-character separator: split at
every occurrence, keeping empty fields. -/
def splitAllChar (sep : Char) : List Char → List (List Char)
  | [] => [[]]
  | c :: cs =>
    let r := splitAllChar sep cs
    if c == sep then [] :: r
    else
      match r with
      | [] => [[c]]
      | h :: t => (c :: h) :: t

/-- Python `s.split()` (no argument): maximal non-whitespace chunks. -/
def pySplitWs (l : List Char) : List (List Char) :=
  ((splitRuns l).filter (fun r => !(r.all isPySpace))).map
    (fun r => r.filter (fun c => !(isPySpace c)))

/-- Value of a decimal digit character, `none` on a non-digit. -/
def digitVal (c : Char) : Option Nat :=
  if 48 ≤ c.toNat && c.toNat ≤ 57 then some (c.toNat - 48) else none

/-- Read a non-empty all-digit character list as a natural number. -/
def digitsToNat : List Char → Option Nat
  | [] => none
  | [c] => digitVal c
  | c :: cs => do
    let d ← digitVal c
    let rest ← digitsToNat cs
    some (d * 10 ^ cs.length + rest)

/-- Python `int(s)`: surrounding whitespace allowed, optional single sign,
then decimal digits; `none` models the `ValueError` on anything else. -/
def pyInt (l : List Char) : Option Int :=
  match pyStrip l with
  | '+' :: rest => (digitsToNat rest).map Int.ofNat
  | '-' :: rest => (digitsToNat rest).map (fun n => -(n : Int))
  | s => (digitsToNat s).map Int.ofNat

/-- Python `l[i]` with wrap-around for negative indices; `none` models the
`IndexError` when the (adjusted) index is out of range. -/
def pyGet {α : Type} (l : List α) (i : Int) : Option α :=
  if 0 ≤ i then l.get? i.toNat
  else
    let j : Int := (l.length : Int) + i
    if 0 ≤ j then l.get? j.toNat else none

/-- An entry of the parser's mutable `story` accumulator: either a
tokenized sentence (`story.append(sentence)`) or the empty-string sentinel
appended after each question (`story.append('')`). -/
inductive Sent where
  | sentinel : Sent
  | toks : List Tok → Sent
deriving DecidableEq

/-- Python truthiness of a `story` entry: the sentinel `''` and an empty
token list are falsy, a non-empty sentence is truthy. -/
def truthy : Sent → Bool
  | .sentinel => false
  | .toks ts => !ts.isEmpty

/-- A parsed example `(substory, query, answer)`; the answer is the raw
(untokenized) tab field. -/
abbrev PEx := List Sent × List Tok × List Char

instance instDecEqPEx : DecidableEq PEx := inferInstance

instance instDecEqListPEx : DecidableEq (List PEx) := inferInstance

/-- Map a fallible function over a list left to right, failing at the
first element on which it fails. -/
def mapOpt {α β : Type} (f : α → Option β) : List α → Option (List β)
  | [] => some []
  | a :: as => do
    let b ← f a
    let bs ← mapOpt f as
    some (b :: bs)

/-- Body of the `parse_stories` loop after the line number has been
handled: classify the remainder as a question line (contains a tab) or a
narrative line, and return the updated accumulator together with the
emitted example, if any. -/
def parseBody (only_supporting : Bool) (story : List Sent) (rest : List Char) :
    Option (List Sent × Option PEx) :=
  if rest.contains '\t' then
    match splitAllChar '\t' rest with
    | [q, a, sup] => do
      let query := tokenizeL q
      let substory ←
        if only_supporting then do
          let nums ← mapOpt pyInt (pySplitWs sup)
          mapOpt (fun i => pyGet story (i - 1)) nums
        else
          some (story.filter truthy)
      some (story ++ [Sent.sentinel], some (substory, query, a))
    | _ => none
  else
    some (story ++ [Sent.toks (tokenizeL rest)], none)

/-- One iteration of the `parse_stories` loop on a raw line: strip it,
split off the line number, parse it as an int, reset the accumulator when
the number is 1, then process the remainder. -/
def parseLine (only_supporting : Bool) (story : List Sent) (l : List Char) :
    Option (List Sent × Option PEx) := do
  let p ← splitFirst ' ' (pyStrip l)
  let nid ← pyInt p.1
  parseBody only_supporting (if nid = 1 then [] else story) p.2

/-- The line number of a raw line, when the prefix parses. -/
def lineNid (l : List Char) : Option Int := do
  let p ← splitFirst ' ' (pyStrip l)
  pyInt p.1

/-- Whether a raw line is a question line: its remainder after the number
prefix contains a tab. -/
def isQuestionLine (l : List Char) : Bool :=
  match splitFirst ' ' (pyStrip l) with
  | some p => p.2.contains '\t'
  | none => false

/-- The `parse_stories` loop, processing lines left to right while
threading the story accumulator and the emitted examples. -/
def runLines (only_supporting : Bool) :
    List (List Char) → List Sent → List PEx → Option (List Sent × List PEx)
  | [], story, out => some (story, out)
  | l :: ls, story, out =>
    match parseLine only_supporting story l with
    | none => none
    | some (story2, em) => runLines only_supporting ls story2 (out ++ em.toList)

/-- `parse_stories(lines, only_supporting)` from `data_helper.py` line 24. -/
def parse_stories (lines : List String) (only_supporting : Bool) :
    Option (List PEx) :=
  (runLines only_supporting (lines.map String.data) [] []).map (fun p => p.2)

/-- C3: on the three example lines, `parse_stories` yields exactly one
example with the two tokenized narrative sentences as its story, the
tokenized question, and the raw answer "bathroom"; with `only_supporting`
enabled only the first (supporting) sentence is kept. -/
theorem parse_stories_example :
    parse_stories
      ["1 Mary moved to the bathroom.",
       "2 John went to the hallway.",
       "3 Where is Mary?\tbathroom\t1"] false =
      some [([Sent.toks ["mary".data, "moved".data, "to".data, "the".data,
                "bathroom".data, ".".data],
              Sent.toks ["john".data, "went".data, "to".data, "the".data,
                "hallway".data, ".".data]],
             ["where".data, "is".data, "mary".data, "?".data],
             "bathroom".data)] ∧
    parse_stories
      ["1 Mary moved to the bathroom.",
       "2 John went to the hallway.",
       "3 Where is Mary?\tbathroom\t1"] true =
      some [([Sent.toks ["mary".data, "moved".data, "to".data, "the".data,
                "bathroom".data, ".".data]],
             ["where".data, "is".data, "mary".data, "?".data],
             "bathroom".data)] := by
  decide

/-- A line whose number parses to 1 makes `parse_stories` discard the
accumulated story before processing the line's remainder. -/
theorem parseLine_reset (os : Bool) (story : List Sent) (l : List Char)
    (h : lineNid l = some 1) : parseLine os story l = parseLine os [] l := by
  cases h1 : splitFirst ' ' (pyStrip l) with
  | none => simp [lineNid, h1] at h
  | some p =>
    cases h2 : pyInt p.1 with
    | none => simp [lineNid, h1, h2] at h
    | some n =>
      have hn : n = 1 := by simpa [lineNid, h1, h2] using h
      subst hn
      simp [parseLine, h1, h2]

/-- The examples accumulated so far are a prefix of the final output and do
not influence the rest of the run. -/
theorem runLines_out (os : Bool) (ls : List (List Char)) :
    ∀ (story : List Sent) (out : List PEx),
      runLines os ls story out =
        (runLines os ls story []).map (fun p => (p.1, out ++ p.2)) := by
  induction ls with
  | nil => intro story out; simp [runLines]
  | cons l ls ih =>
    intro story out
    cases hp : parseLine os story l with
    | none => simp [runLines, hp]
    | some q =>
      obtain ⟨story2, em⟩ := q
      simp only [runLines, hp]
      rw [ih story2 (out ++ em.toList), ih story2 ([] ++ em.toList)]
      cases runLines os ls story2 [] with
      | none => rfl
      | some r => simp [List.append_assoc]

/-- C4: whenever the loop of `parse_stories` reaches a line whose number
prefix equals 1, the accumulated story history is cleared: the run from an
arbitrary accumulated state coincides with a fresh run on the remaining
lines, except that the examples already emitted stay as a prefix — so
every example emitted afterwards draws its story only from sentences seen
since that reset. -/
theorem runLines_reset_on_nid_one (os : Bool) (story : List Sent)
    (out : List PEx) (l : List Char) (ls : List (List Char))
    (h : lineNid l = some 1) :
    runLines os (l :: ls) story out =
      (runLines os (l :: ls) [] []).map (fun p => (p.1, out ++ p.2)) := by
  have h1 : parseLine os story l = parseLine os [] l := parseLine_reset os story l h
  cases hp : parseLine os [] l with
  | none => simp [runLines, h1, hp]
  | some q =>
    obtain ⟨story2, em⟩ := q
    simp only [runLines, h1, hp]
    rw [runLines_out os ls story2 (out ++ em.toList),
      runLines_out os ls story2 ([] ++ em.toList)]
    cases runLines os ls story2 [] with
    | none => rfl
    | some r => simp [List.append_assoc]

/-- Closed instance of the reset invariant: a non-empty accumulated state
is discarded by a line numbered 1. -/
theorem runLines_reset_on_nid_one_witness :
    runLines false ["1 Bob went home.".data] [Sent.toks ["stale".data]]
        [([], [], "x".data)] =
      (runLines false ["1 Bob went home.".data] [] []).map
        (fun p => (p.1, [(([] : List Sent), ([] : List Tok), "x".data)] ++ p.2)) :=
  runLines_reset_on_nid_one false [Sent.toks ["stale".data]]
    [([], [], "x".data)] "1 Bob went home.".data [] (by decide)

/-- The story accumulator as it stands when the body of a line is
processed: cleared when the line's number is 1. -/
def storyAfterReset (story : List Sent) (l : List Char) : List Sent :=
  if lineNid l = some 1 then [] else story

/-- C5: when `parse_stories` processes a question line, it emits an
example and then appends the sentinel empty sentence to the story history;
when support-filtering is disabled, the emitted story is the full truthy
(non-empty, non-sentinel) sentence history, so sentinels never appear in
an emitted story. -/
theorem parseLine_question_sentinel (os : Bool) (story : List Sent)
    (l : List Char) (story2 : List Sent) (em : Option PEx)
    (h : parseLine os story l = some (story2, em))
    (hq : isQuestionLine l = true) :
    ∃ e : PEx, em = some e ∧
      story2 = storyAfterReset story l ++ [Sent.sentinel] ∧
      (os = false →
        e.1 = (storyAfterReset story l).filter truthy ∧
          Sent.sentinel ∉ e.1) := by
  cases h1 : splitFirst ' ' (pyStrip l) with
  | none => simp [parseLine, h1] at h
  | some p =>
    cases h2 : pyInt p.1 with
    | none => simp [parseLine, h1, h2] at h
    | some n =>
      have hq3 : '\t' ∈ p.2 := by
        have hq2 : p.2.contains '\t' = true := by
          simpa [isQuestionLine, h1] using hq
        simpa using hq2
      have hsr : storyAfterReset story l = (if n = 1 then [] else story) := by
        simp [storyAfterReset, lineNid, h1, h2]
      have h3 : parseBody os (if n = 1 then [] else story) p.2 =
          some (story2, em) := by
        simpa [parseLine, h1, h2] using h
      rw [hsr]
      cases h4 : splitAllChar '\t' p.2 with
      | nil => simp [parseBody, hq3, h4] at h3
      | cons q t1 =>
        cases t1 with
        | nil => simp [parseBody, hq3, h4] at h3
        | cons a t2 =>
          cases t2 with
          | nil => simp [parseBody, hq3, h4] at h3
          | cons sup t3 =>
            cases t3 with
            | cons x t4 => simp [parseBody, hq3, h4] at h3
            | nil =>
              cases os with
              | false =>
                simp [parseBody, hq3, h4] at h3
                obtain ⟨hst, hem⟩ := h3
                refine ⟨((if n = 1 then [] else story).filter truthy,
                  tokenizeL q, a), hem.symm, hst.symm, ?_⟩
                intro _
                refine ⟨rfl, ?_⟩
                intro hmem
                have hf := List.mem_filter.mp hmem
                simp [truthy] at hf
              | true =>
                cases h5 : mapOpt pyInt (pySplitWs sup) with
                | none => simp [parseBody, hq3, h4, h5] at h3
                | some nums =>
                  cases h6 : mapOpt
                      (fun i => pyGet (if n = 1 then [] else story) (i - 1))
                      nums with
                  | none => simp [parseBody, hq3, h4, h5, h6] at h3
                  | some sub =>
                    simp [parseBody, hq3, h4, h5, h6] at h3
                    obtain ⟨hst, hem⟩ := h3
                    exact ⟨(sub, tokenizeL q, a), hem.symm, hst.symm,
                      fun hx => by cases hx⟩

/-- Concrete inputs for the closed instance of the sentinel property. -/
def wStory : List Sent := [Sent.toks ["a".data]]

/-- Concrete question line for the closed instance of the sentinel property. -/
def wLine : List Char := "2 Where is Mary?\tbathroom\t1".data

/-- Closed instance of the sentinel property on a concrete question line. -/
theorem parseLine_question_sentinel_witness :
    parseLine false wStory wLine =
      some ([Sent.toks ["a".data], Sent.sentinel],
        some ([Sent.toks ["a".data]],
          ["where".data, "is".data, "mary".data, "?".data], "bathroom".data)) ∧
    isQuestionLine wLine = true ∧
    (∃ e : PEx,
      (some ([Sent.toks ["a".data]],
        ["where".data, "is".data, "mary".data, "?".data], "bathroom".data) :
          Option PEx) = some e ∧
      [Sent.toks ["a".data], Sent.sentinel] =
        storyAfterReset wStory wLine ++ [Sent.sentinel] ∧
      (false = false →
        e.1 = (storyAfterReset wStory wLine).filter truthy ∧
          Sent.sentinel ∉ e.1)) :=
  ⟨by decide, by decide,
    parseLine_question_sentinel false wStory wLine
      [Sent.toks ["a".data], Sent.sentinel]
      (some ([Sent.toks ["a".data]],
        ["where".data, "is".data, "mary".data, "?".data], "bathroom".data))
      (by decide) (by decide)⟩

/-- The reserved pad token `'_PAD'` (`data_helper.py` line 17). -/
def PAD_TOKEN : Tok := "_PAD".data

/-- The reserved pad id (`data_helper.py` line 18). -/
def PAD_ID : Nat := 0

/-- A token-level example `(story, query, answer)` as consumed by
`get_tokenizer` and `tokenize_stories`. -/
abbrev TEx := List (List Tok) × List Tok × Tok

/-- The token population of a list of examples, in traversal order: all
story tokens, then the query tokens, then the answer, per example
(`tokens_all` in `get_tokenizer`). -/
def tokensAll (stories : List TEx) : List Tok :=
  stories.foldr (fun e acc => (e.1.flatten ++ e.2.1 ++ [e.2.2]) ++ acc) []

/-- Lexicographic comparison of Python strings by code point, as used by
`sorted` on `str`. -/
def lexLe : Tok → Tok → Bool
  | [], _ => true
  | _ :: _, [] => false
  | c :: cs, d :: ds => if c = d then lexLe cs ds else decide (c < d)

/-- `lexLe` is total. -/
theorem lexLe_total : ∀ a b : Tok, lexLe a b = true ∨ lexLe b a = true
  | [], _ => Or.inl rfl
  | _ :: _, [] => Or.inr rfl
  | c :: cs, d :: ds => by
    by_cases hcd : c = d
    · subst hcd
      rcases lexLe_total cs ds with h | h
      · exact Or.inl (by simp [lexLe, h])
      · exact Or.inr (by simp [lexLe, h])
    · rcases Ne.lt_or_lt hcd with h | h
      · exact Or.inl (by simp [lexLe, hcd, h])
      · exact Or.inr (by simp [lexLe, Ne.symm hcd, h])

/-- `lexLe` is transitive. -/
theorem lexLe_trans :
    ∀ a b c : Tok, lexLe a b = true → lexLe b c = true → lexLe a c = true
  | [], _, _, _, _ => rfl
  | x :: xs, [], _, hab, _ => by simp [lexLe] at hab
  | x :: xs, y :: ys, [], _, hbc => by simp [lexLe] at hbc
  | x :: xs, y :: ys, z :: zs, hab, hbc => by
    by_cases hxy : x = y
    · subst hxy
      by_cases hxz : x = z
      · subst hxz
        simp only [lexLe, if_pos rfl] at hab hbc ⊢
        exact lexLe_trans xs ys zs hab hbc
      · simp [lexLe, hxz] at hbc ⊢
        exact hbc
    · simp [lexLe, hxy] at hab
      by_cases hyz : y = z
      · subst hyz
        simp [lexLe, hxy]
        exact hab
      · simp [lexLe, hyz] at hbc
        have hxz : x < z := lt_trans hab hbc
        simp [lexLe, ne_of_lt hxz, hxz]

/-- `lexLe` is antisymmetric. -/
theorem lexLe_antisymm :
    ∀ a b : Tok, lexLe a b = true → lexLe b a = true → a = b
  | [], [], _, _ => rfl
  | [], _ :: _, _, hba => by simp [lexLe] at hba
  | _ :: _, [], hab, _ => by simp [lexLe] at hab
  | c :: cs, d :: ds, hab, hba => by
    by_cases hcd : c = d
    · subst hcd
      simp only [lexLe, if_pos rfl] at hab hba
      rw [lexLe_antisymm cs ds hab hba]
    · simp [lexLe, hcd, Ne.symm hcd] at hab hba
      exact absurd hba (not_lt_of_gt hab)

instance instLexLeDecidable : DecidableRel (fun a b : Tok => lexLe a b = true) :=
  fun a b => inferInstanceAs (Decidable (lexLe a b = true))

instance instLexLeTotal : IsTotal Tok (fun a b => lexLe a b = true) :=
  ⟨lexLe_total⟩

instance instLexLeTrans : IsTrans Tok (fun a b => lexLe a b = true) :=
  ⟨lexLe_trans⟩

instance instLexLeAntisymm : IsAntisymm Tok (fun a b => lexLe a b = true) :=
  ⟨lexLe_antisymm⟩

/-- Python `sorted(set(tokens))`: the unique tokens in increasing
lexicographic order. -/
def sortedDedup (l : List Tok) : List Tok :=
  List.insertionSort (fun a b => lexLe a b = true) l.dedup

/-- The vocabulary built by `get_tokenizer` (`data_helper.py` line 100):
the pad token followed by the sorted unique dataset tokens. -/
def get_tokenizer_vocab (stories : List TEx) : List Tok :=
  PAD_TOKEN :: sortedDedup (tokensAll stories)

/-- Index assigned by the dict comprehension
`{token: i for i, token in enumerate(vocab)}`: a later duplicate
overwrites an earlier one, so this is the index of the last occurrence. -/
def lastIdx (t : Tok) : List Tok → Option Nat
  | [] => none
  | a :: as =>
    match lastIdx t as with
    | some i => some (i + 1)
    | none => if a = t then some 0 else none

/-- The `token_to_id` mapping returned by `get_tokenizer`; `none` models
the `KeyError` on a token not in the vocabulary. -/
def token_to_id (stories : List TEx) (t : Tok) : Option Nat :=
  lastIdx t (get_tokenizer_vocab stories)

/-- Sorting the unique tokens permutes them. -/
theorem sortedDedup_perm (l : List Tok) : (sortedDedup l).Perm l.dedup :=
  List.perm_insertionSort _ _

/-- Membership in the sorted unique tokens is membership in the population. -/
theorem mem_sortedDedup {t : Tok} {l : List Tok} :
    t ∈ sortedDedup l ↔ t ∈ l := by
  rw [(sortedDedup_perm l).mem_iff, List.mem_dedup]

/-- The sorted unique tokens contain no duplicates. -/
theorem sortedDedup_nodup (l : List Tok) : (sortedDedup l).Nodup :=
  ((sortedDedup_perm l).nodup_iff).mpr (List.nodup_dedup l)

/-- The sorted unique tokens are sorted. -/
theorem sortedDedup_sorted (l : List Tok) :
    List.Sorted (fun a b => lexLe a b = true) (sortedDedup l) :=
  List.sorted_insertionSort _ _

/-- Two populations with the same members sort to the same unique list. -/
theorem sortedDedup_eq_of_mem_iff {l1 l2 : List Tok}
    (h : ∀ t, t ∈ l1 ↔ t ∈ l2) : sortedDedup l1 = sortedDedup l2 := by
  have hperm : l1.dedup.Perm l2.dedup :=
    List.perm_of_nodup_nodup_toFinset_eq (List.nodup_dedup l1)
      (List.nodup_dedup l2)
      (by ext a; simp [List.mem_toFinset, List.mem_dedup, h a])
  exact List.eq_of_perm_of_sorted
    ((sortedDedup_perm l1).trans (hperm.trans (sortedDedup_perm l2).symm))
    (sortedDedup_sorted l1) (sortedDedup_sorted l2)

/-- A last-occurrence index points at the token. -/
theorem lastIdx_get? (t : Tok) :
    ∀ (l : List Tok) (i : Nat), lastIdx t l = some i → l.get? i = some t := by
  intro l
  induction l with
  | nil => intro i h; simp [lastIdx] at h
  | cons a as ih =>
    intro i h
    cases hr : lastIdx t as with
    | some j =>
      simp [lastIdx, hr] at h
      subst h
      simpa using ih j hr
    | none =>
      simp [lastIdx, hr] at h
      obtain ⟨ha, hi⟩ := h
      subst hi
      simp [ha]

/-- A last-occurrence index is in range. -/
theorem lastIdx_lt (t : Tok) (l : List Tok) (i : Nat)
    (h : lastIdx t l = some i) : i < l.length := by
  by_contra hge
  have : l.get? i = none := List.get?_eq_none.mpr (Nat.le_of_not_lt hge)
  rw [lastIdx_get? t l i h] at this
  cases this

/-- Every member has a last-occurrence index. -/
theorem lastIdx_of_mem (t : Tok) :
    ∀ (l : List Tok), t ∈ l → ∃ i, lastIdx t l = some i := by
  intro l
  induction l with
  | nil => intro h; cases h
  | cons a as ih =>
    intro h
    cases hr : lastIdx t as with
    | some j => exact ⟨j + 1, by simp [lastIdx, hr]⟩
    | none =>
      have ha : a = t := by
        rcases List.mem_cons.mp h with h1 | h2
        · exact h1.symm
        · obtain ⟨j, hj⟩ := ih h2
          rw [hj] at hr
          cases hr
      exact ⟨0, by simp [lastIdx, hr, ha]⟩

/-- A non-member has no last-occurrence index. -/
theorem lastIdx_none_of_not_mem (t : Tok) :
    ∀ (l : List Tok), t ∉ l → lastIdx t l = none := by
  intro l
  induction l with
  | nil => intro _; rfl
  | cons a as ih =>
    intro h
    have h1 : t ∉ as := fun hm => h (List.mem_cons_of_mem a hm)
    have h2 : a ≠ t := fun he => h (he ▸ List.mem_cons_self a as)
    simp [lastIdx, ih h1, h2]

/-- The vocabulary properties of `get_tokenizer`: identical output on any
population with the same members, pad token at index 0 with id 0, length
one more than the number of unique non-pad tokens, sorted non-pad tail,
every dataset token mapped into `[1, vocab_size - 1]`, and no two tokens
sharing an id. -/
def TokenizerOK (stories : List TEx) : Prop :=
  (∀ s2 : List TEx, (∀ t : Tok, t ∈ tokensAll stories ↔ t ∈ tokensAll s2) →
      get_tokenizer_vocab stories = get_tokenizer_vocab s2) ∧
  (get_tokenizer_vocab stories).head? = some PAD_TOKEN ∧
  token_to_id stories PAD_TOKEN = some 0 ∧
  (get_tokenizer_vocab stories).length =
    1 + ((tokensAll stories).dedup.filter (fun t => !(t == PAD_TOKEN))).length ∧
  List.Sorted (fun a b => lexLe a b = true) (get_tokenizer_vocab stories).tail ∧
  (∀ t, t ∈ tokensAll stories →
    ∃ i, token_to_id stories t = some i ∧ 1 ≤ i ∧
      i ≤ (get_tokenizer_vocab stories).length - 1) ∧
  (∀ t1 t2 i, token_to_id stories t1 = some i →
    token_to_id stories t2 = some i → t1 = t2)

/-- C2 (amended): provided the pad token `'_PAD'` does not itself occur in
the token population, `get_tokenizer` is deterministic in the population,
places the pad token at index 0 with id 0, assigns the sorted unique
tokens the ids `1..N` by position, has vocabulary length `1 + N`, and maps
distinct dataset tokens to distinct ids in `[1, vocab_size - 1]`. -/
theorem get_tokenizer_spec (stories : List TEx)
    (h : PAD_TOKEN ∉ tokensAll stories) : TokenizerOK stories := by
  refine ⟨?_, rfl, ?_, ?_, ?_, ?_, ?_⟩
  · intro s2 hmem
    unfold get_tokenizer_vocab
    rw [sortedDedup_eq_of_mem_iff hmem]
  · have hn : lastIdx PAD_TOKEN (sortedDedup (tokensAll stories)) = none :=
      lastIdx_none_of_not_mem _ _ (fun hm => h (mem_sortedDedup.mp hm))
    unfold token_to_id get_tokenizer_vocab
    simp [lastIdx, hn]
  · have hfil : (tokensAll stories).dedup.filter (fun t => !(t == PAD_TOKEN)) =
        (tokensAll stories).dedup := by
      apply List.filter_eq_self.mpr
      intro a ha
      have hne : a ≠ PAD_TOKEN := by
        intro he
        exact h (he ▸ List.mem_dedup.mp ha)
      simp [hne]
    have hlen := (sortedDedup_perm (tokensAll stories)).length_eq
    unfold get_tokenizer_vocab
    rw [hfil]
    simp only [List.length_cons]
    omega
  · simpa [get_tokenizer_vocab] using sortedDedup_sorted (tokensAll stories)
  · intro t ht
    have hts : t ∈ sortedDedup (tokensAll stories) := mem_sortedDedup.mpr ht
    obtain ⟨j, hj⟩ := lastIdx_of_mem t _ hts
    have hjlt : j < (sortedDedup (tokensAll stories)).length :=
      lastIdx_lt t _ j hj
    refine ⟨j + 1, ?_, Nat.succ_le_succ (Nat.zero_le j), ?_⟩
    · unfold token_to_id get_tokenizer_vocab
      simp [lastIdx, hj]
    · unfold get_tokenizer_vocab
      simp only [List.length_cons]
      omega
  · intro t1 t2 i h1 h2
    have g1 := lastIdx_get? t1 _ i h1
    have g2 := lastIdx_get? t2 _ i h2
    exact Option.some.inj (g1.symm.trans g2)

/-- C2 counterexample: when the pad token itself occurs in the population
(here as an answer), the vocabulary holds it twice, so its length is not
`1 + ` the number of unique non-pad tokens. -/
theorem get_tokenizer_len_cex :
    ¬ ((get_tokenizer_vocab [([], [], PAD_TOKEN)]).length =
      1 + ((tokensAll [([], [], PAD_TOKEN)]).dedup.filter
        (fun t => !(t == PAD_TOKEN))).length) := by
  decide

/-- A concrete pad-free population for the closed tokenizer instance. -/
def wStories : List TEx := [([["b".data]], ["a".data], "c".data)]

/-- Closed instance of the tokenizer specification. -/
theorem get_tokenizer_spec_witness :
    PAD_TOKEN ∉ tokensAll wStories ∧ TokenizerOK wStories :=
  ⟨by decide, get_tokenizer_spec wStories (by decide)⟩

/-- A successful `mapOpt` relates inputs and outputs pointwise. -/
theorem mapOpt_some_forall₂ {α β : Type} (f : α → Option β) :
    ∀ (l : List α) (bs : List β), mapOpt f l = some bs →
      List.Forall₂ (fun a b => f a = some b) l bs := by
  intro l
  induction l with
  | nil =>
    intro bs h
    simp only [mapOpt, Option.some.injEq] at h
    subst h
    exact List.Forall₂.nil
  | cons a as ih =>
    intro bs h
    cases hf : f a with
    | none => simp [mapOpt, hf] at h
    | some b =>
      cases hr : mapOpt f as with
      | none => simp [mapOpt, hf, hr] at h
      | some cs =>
        simp [mapOpt, hf, hr] at h
        subst h
        exact List.Forall₂.cons hf (ih cs hr)

/-- `mapOpt` succeeds when the function succeeds on every element. -/
theorem mapOpt_isSome_of_all {α β : Type} (f : α → Option β) :
    ∀ l : List α, (∀ a ∈ l, (f a).isSome = true) →
      ∃ bs, mapOpt f l = some bs := by
  intro l
  induction l with
  | nil => intro _; exact ⟨[], rfl⟩
  | cons a as ih =>
    intro h
    obtain ⟨b, hb⟩ := Option.isSome_iff_exists.mp (h a (List.mem_cons_self a as))
    obtain ⟨bs, hbs⟩ := ih (fun x hx => h x (List.mem_cons_of_mem a hx))
    exact ⟨b :: bs, by simp [mapOpt, hb, hbs]⟩

/-- `mapOpt` fails as soon as the function fails on some element. -/
theorem mapOpt_none_of_mem {α β : Type} (f : α → Option β) :
    ∀ (l : List α) (a : α), a ∈ l → f a = none → mapOpt f l = none := by
  intro l
  induction l with
  | nil => intro a ha _; cases ha
  | cons x xs ih =>
    intro a ha hf
    rcases List.mem_cons.mp ha with h1 | h2
    · subst h1
      simp [mapOpt, hf]
    · cases hfx : f x with
      | none => simp [mapOpt, hfx]
      | some b => simp [mapOpt, hfx, ih a h2 hf]

/-- A numeric example after encoding: token ids in place of tokens. -/
abbrev IEx := List (List Nat) × List Nat × Nat

/-- Encode one example under a token→id mapping, as the body of the
`tokenize_stories` loop does; `none` models the `KeyError` raised on a
token absent from the mapping. -/
def encodeEx (d : Tok → Option Nat) (e : TEx) : Option IEx := do
  let story ← mapOpt (fun s => mapOpt d s) e.1
  let query ← mapOpt d e.2.1
  let answer ← d e.2.2
  some (story, query, answer)

/-- `tokenize_stories(stories, token_to_id)` from `data_helper.py`
line 85, with the dict modelled as a partial mapping. -/
def tokenize_stories (stories : List TEx) (d : Tok → Option Nat) :
    Option (List IEx) :=
  mapOpt (encodeEx d) stories

/-- Pointwise correspondence between a token example and its encoding:
every token is replaced by exactly its id. -/
def ExRel (d : Tok → Option Nat) (e : TEx) (o : IEx) : Prop :=
  List.Forall₂ (List.Forall₂ (fun t i => d t = some i)) e.1 o.1 ∧
  List.Forall₂ (fun t i => d t = some i) e.2.1 o.2.1 ∧
  d e.2.2 = some o.2.2

/-- Membership in the token population is membership in some example. -/
theorem mem_tokensAll {t : Tok} :
    ∀ {stories : List TEx},
      t ∈ tokensAll stories ↔
        ∃ e ∈ stories, t ∈ e.1.flatten ∨ t ∈ e.2.1 ∨ t = e.2.2 := by
  intro stories
  induction stories with
  | nil => simp [tokensAll]
  | cons e es ih =>
    rw [show tokensAll (e :: es) =
      (e.1.flatten ++ e.2.1 ++ [e.2.2]) ++ tokensAll es from rfl]
    simp only [List.mem_append, List.mem_singleton, ih, List.mem_cons,
      List.not_mem_nil, or_false]
    constructor
    · rintro (((h1 | h2) | h3) | ⟨e2, he2, h4⟩)
      · exact ⟨e, Or.inl rfl, Or.inl h1⟩
      · exact ⟨e, Or.inl rfl, Or.inr (Or.inl h2)⟩
      · exact ⟨e, Or.inl rfl, Or.inr (Or.inr h3)⟩
      · exact ⟨e2, Or.inr he2, h4⟩
    · rintro ⟨e2, he2 | he2, h4⟩
      · subst he2
        rcases h4 with h1 | h2 | h3
        · exact Or.inl (Or.inl (Or.inl h1))
        · exact Or.inl (Or.inl (Or.inr h2))
        · exact Or.inl (Or.inr h3)
      · exact Or.inr ⟨e2, he2, h4⟩

/-- Encoding an example succeeds when all its tokens are in the mapping. -/
theorem encodeEx_isSome (d : Tok → Option Nat) (e : TEx)
    (h : ∀ t, (t ∈ e.1.flatten ∨ t ∈ e.2.1 ∨ t = e.2.2) →
      (d t).isSome = true) :
    (encodeEx d e).isSome = true := by
  obtain ⟨story, hstory⟩ := mapOpt_isSome_of_all (fun s => mapOpt d s) e.1
    (fun s hs => by
      obtain ⟨ss, hss⟩ := mapOpt_isSome_of_all d s
        (fun t ht => h t (Or.inl (List.mem_flatten.mpr ⟨s, hs, ht⟩)))
      simp [hss])
  obtain ⟨query, hquery⟩ := mapOpt_isSome_of_all d e.2.1
    (fun t ht => h t (Or.inr (Or.inl ht)))
  obtain ⟨answer, hanswer⟩ :=
    Option.isSome_iff_exists.mp (h e.2.2 (Or.inr (Or.inr rfl)))
  simp [encodeEx, hstory, hquery, hanswer]

/-- A successful encoding satisfies the pointwise correspondence. -/
theorem encodeEx_rel (d : Tok → Option Nat) (e : TEx) (o : IEx)
    (h : encodeEx d e = some o) : ExRel d e o := by
  cases hstory : mapOpt (fun s => mapOpt d s) e.1 with
  | none => simp [encodeEx, hstory] at h
  | some story =>
    cases hquery : mapOpt d e.2.1 with
    | none => simp [encodeEx, hstory, hquery] at h
    | some query =>
      cases hanswer : d e.2.2 with
      | none => simp [encodeEx, hstory, hquery, hanswer] at h
      | some answer =>
        simp [encodeEx, hstory, hquery, hanswer] at h
        subst h
        exact ⟨(mapOpt_some_forall₂ _ e.1 story hstory).imp
            (fun s ss hs => mapOpt_some_forall₂ d s ss hs),
          mapOpt_some_forall₂ d e.2.1 query hquery, hanswer⟩

/-- Encoding an example fails when one of its tokens is not mapped. -/
theorem encodeEx_none (d : Tok → Option Nat) (e : TEx) (t : Tok)
    (hmem : t ∈ e.1.flatten ∨ t ∈ e.2.1 ∨ t = e.2.2) (hd : d t = none) :
    encodeEx d e = none := by
  rcases hmem with h1 | h2 | h3
  · obtain ⟨s, hs, hts⟩ := List.mem_flatten.mp h1
    have hsn : mapOpt d s = none := mapOpt_none_of_mem d s t hts hd
    have : mapOpt (fun s => mapOpt d s) e.1 = none :=
      mapOpt_none_of_mem _ e.1 s hs hsn
    simp [encodeEx, this]
  · have hqn : mapOpt d e.2.1 = none := mapOpt_none_of_mem d e.2.1 t h2 hd
    cases hstory : mapOpt (fun s => mapOpt d s) e.1 with
    | none => simp [encodeEx, hstory]
    | some story => simp [encodeEx, hstory, hqn]
  · subst h3
    cases hstory : mapOpt (fun s => mapOpt d s) e.1 with
    | none => simp [encodeEx, hstory]
    | some story =>
      cases hquery : mapOpt d e.2.1 with
      | none => simp [encodeEx, hstory, hquery]
      | some query => simp [encodeEx, hstory, hquery, hd]

/-- C8: `tokenize_stories` replaces every token of every sentence, query
and answer by its id from the mapping when all tokens are present, and
fails (the `KeyError` is not masked by a default id) as soon as any token
is absent from the mapping. -/
theorem tokenize_stories_spec (stories : List TEx) (d : Tok → Option Nat) :
    ((∀ t ∈ tokensAll stories, (d t).isSome = true) →
      ∃ out, tokenize_stories stories d = some out ∧
        List.Forall₂ (ExRel d) stories out) ∧
    ((∃ t ∈ tokensAll stories, d t = none) →
      tokenize_stories stories d = none) := by
  constructor
  · intro h
    obtain ⟨out, hout⟩ := mapOpt_isSome_of_all (encodeEx d) stories
      (fun e he => encodeEx_isSome d e
        (fun t ht => h t (mem_tokensAll.mpr ⟨e, he, ht⟩)))
    exact ⟨out, hout, (mapOpt_some_forall₂ _ stories out hout).imp
      (fun e o he => encodeEx_rel d e o he)⟩
  · rintro ⟨t, ht, hd⟩
    obtain ⟨e, he, hte⟩ := mem_tokensAll.mp ht
    exact mapOpt_none_of_mem _ stories e he (encodeEx_none d e t hte hd)

/-- Pointwise-related nested lists have the same sentence lengths. -/
theorem forall₂_map_length {R : Tok → Nat → Prop} :
    ∀ {xs : List (List Tok)} {ys : List (List Nat)},
      List.Forall₂ (List.Forall₂ R) xs ys →
      ys.map List.length = xs.map List.length := by
  intro xs ys h
  induction h with
  | nil => rfl
  | cons h1 _ ih => simp [ih, h1.length_eq]

/-- Pointwise-encoded examples have the same shape. -/
theorem forall₂_exRel_shape (d : Tok → Option Nat) :
    ∀ {stories : List TEx} {out : List IEx},
      List.Forall₂ (ExRel d) stories out →
      out.map (fun o => (o.1.map List.length, o.2.1.length)) =
        stories.map (fun e => (e.1.map List.length, e.2.1.length)) := by
  intro stories out h
  induction h with
  | nil => rfl
  | cons h1 _ ih =>
    obtain ⟨hs, hq, _⟩ := h1
    simp [ih, forall₂_map_length hs, hq.length_eq]

/-- C10: when every token is in the mapping, `tokenize_stories` preserves
shape exactly: the same number of examples in the same order, each story
with the same number of sentences, each sentence and each question with
the same length — only the token values change. -/
theorem tokenize_stories_shape (stories : List TEx) (d : Tok → Option Nat)
    (h : ∀ t ∈ tokensAll stories, (d t).isSome = true) :
    ∃ out, tokenize_stories stories d = some out ∧
      out.length = stories.length ∧
      out.map (fun o => (o.1.map List.length, o.2.1.length)) =
        stories.map (fun e => (e.1.map List.length, e.2.1.length)) := by
  obtain ⟨out, hout⟩ := mapOpt_isSome_of_all (encodeEx d) stories
    (fun e he => encodeEx_isSome d e
      (fun t ht => h t (mem_tokensAll.mpr ⟨e, he, ht⟩)))
  have hrel := (mapOpt_some_forall₂ _ stories out hout).imp
    (fun e o he => encodeEx_rel d e o he)
  exact ⟨out, hout, hrel.length_eq.symm, forall₂_exRel_shape d hrel⟩

/-- A small concrete mapping for the closed encoder instances. -/
def d0 : Tok → Option Nat := fun t =>
  if t = "x".data then some 1
  else if t = "y".data then some 2
  else if t = "z".data then some 3
  else none

/-- A small concrete example list for the closed encoder instances. -/
def wStories2 : List TEx := [([["x".data]], ["y".data], "z".data)]

/-- Closed instance of the encoder specification. -/
theorem tokenize_stories_spec_witness :
    (∀ t ∈ tokensAll wStories2, (d0 t).isSome = true) ∧
    (∃ out, tokenize_stories wStories2 d0 = some out ∧
      List.Forall₂ (ExRel d0) wStories2 out) :=
  ⟨by decide, (tokenize_stories_spec wStories2 d0).1 (by decide)⟩

/-- Closed instance of the encoder shape preservation. -/
theorem tokenize_stories_shape_witness :
    (∀ t ∈ tokensAll wStories2, (d0 t).isSome = true) ∧
    (∃ out, tokenize_stories wStories2 d0 = some out ∧
      out.length = wStories2.length ∧
      out.map (fun o => (o.1.map List.length, o.2.1.length)) =
        wStories2.map (fun e => (e.1.map List.length, e.2.1.length))) :=
  ⟨by decide, tokenize_stories_shape wStories2 d0 (by decide)⟩

/-- Pad one sentence to the target length with pad ids
(`for _ in range(max_sentence_length - len(sentence)): sentence.append(PAD_ID)`);
a negative range is empty, so an over-long sentence is left unchanged. -/
def padSentence (msl : Nat) (s : List Nat) : List Nat :=
  s ++ List.replicate (msl - s.length) PAD_ID

/-- Pad one example as the `pad_stories` loop body does; the three
`assert` statements are modelled by the three checks, and `none` models
the `AssertionError` abort. -/
def pad_example (msl mst mq : Nat) (e : IEx) : Option IEx :=
  let sts := e.1.map (padSentence msl)
  let story := sts ++ List.replicate (mst - sts.length) (List.replicate msl PAD_ID)
  let query := e.2.1 ++ List.replicate (mq - e.2.1.length) PAD_ID
  if sts.all (fun s => s.length == msl) then
    if story.length = mst then
      if query.length = mq then some (story, query, e.2.2) else none
    else none
  else none

/-- `pad_stories(stories, ...)` from `data_helper.py` line 104. -/
def pad_stories (stories : List IEx) (msl mst mq : Nat) : Option (List IEx) :=
  mapOpt (pad_example msl mst mq) stories

/-- All of an example's lengths are at most the padding targets. -/
def LensLE (msl mst mq : Nat) (e : IEx) : Prop :=
  (∀ s ∈ e.1, s.length ≤ msl) ∧ e.1.length ≤ mst ∧ e.2.1.length ≤ mq

/-- What padding guarantees for one example: each output component is the
input followed by pad-id filler, and all lengths match the targets. -/
def PaddedRel (msl mst mq : Nat) (e o : IEx) : Prop :=
  o.1 = e.1.map (padSentence msl) ++
    List.replicate (mst - e.1.length) (List.replicate msl PAD_ID) ∧
  o.2.1 = e.2.1 ++ List.replicate (mq - e.2.1.length) PAD_ID ∧
  o.2.2 = e.2.2 ∧
  o.1.length = mst ∧ (∀ s ∈ o.1, s.length = msl) ∧ o.2.1.length = mq

/-- A sentence within the target length pads to exactly the target. -/
theorem padSentence_length (msl : Nat) (s : List Nat) (h : s.length ≤ msl) :
    (padSentence msl s).length = msl := by
  simp [padSentence]
  omega

/-- Under the length bounds, padding an example succeeds and returns the
components extended with pad-id filler. -/
theorem pad_example_eq (msl mst mq : Nat) (e : IEx) (h : LensLE msl mst mq e) :
    pad_example msl mst mq e = some
      (e.1.map (padSentence msl) ++
        List.replicate (mst - e.1.length) (List.replicate msl PAD_ID),
       e.2.1 ++ List.replicate (mq - e.2.1.length) PAD_ID, e.2.2) := by
  obtain ⟨h1, h2, h3⟩ := h
  have hall : (e.1.map (padSentence msl)).all (fun s => s.length == msl) = true := by
    rw [List.all_eq_true]
    intro s hs
    obtain ⟨s0, hs0, rfl⟩ := List.mem_map.mp hs
    simp [padSentence_length msl s0 (h1 s0 hs0)]
  have hstlen : (e.1.map (padSentence msl) ++
      List.replicate (mst - (e.1.map (padSentence msl)).length)
        (List.replicate msl PAD_ID)).length = mst := by
    simp
    omega
  have hqlen : (e.2.1 ++ List.replicate (mq - e.2.1.length) PAD_ID).length = mq := by
    simp
    omega
  simp [pad_example, hall, hstlen, hqlen]
  omega

/-- Padding an example only succeeds when all its lengths are within the
targets: any over-long sentence, story or query trips an assertion. -/
theorem pad_example_lensLE (msl mst mq : Nat) (e : IEx) (o : IEx)
    (h : pad_example msl mst mq e = some o) : LensLE msl mst mq e := by
  simp only [pad_example] at h
  split_ifs at h with hall hst hq
  · refine ⟨?_, ?_, ?_⟩
    · intro s hs
      have hl := List.all_eq_true.mp hall (padSentence msl s)
        (List.mem_map_of_mem _ hs)
      simp [padSentence] at hl
      omega
    · simp at hst
      omega
    · simp at hq
      omega

/-- Under the length bounds the padded example satisfies all the padding
guarantees. -/
theorem paddedRel_holds (msl mst mq : Nat) (e : IEx) (h : LensLE msl mst mq e) :
    PaddedRel msl mst mq e
      (e.1.map (padSentence msl) ++
        List.replicate (mst - e.1.length) (List.replicate msl PAD_ID),
       e.2.1 ++ List.replicate (mq - e.2.1.length) PAD_ID, e.2.2) := by
  obtain ⟨h1, h2, h3⟩ := h
  refine ⟨rfl, rfl, rfl, ?_, ?_, ?_⟩
  · simp
    omega
  · intro s hs
    rcases List.mem_append.mp hs with hm | hr
    · obtain ⟨s0, hs0, rfl⟩ := List.mem_map.mp hm
      exact padSentence_length msl s0 (h1 s0 hs0)
    · rw [List.eq_of_mem_replicate hr]
      simp
  · simp
    omega

/-- C1: when every sentence, story and query is within the targets,
`pad_stories` succeeds and every output sentence has exactly the target
sentence length, every story the target sentence count, every question
the target length, with every appended position holding pad id 0; when
any length exceeds its target, the run aborts via a failed assertion. -/
theorem pad_stories_spec (stories : List IEx) (msl mst mq : Nat) :
    ((∀ e ∈ stories, LensLE msl mst mq e) →
      ∃ out, pad_stories stories msl mst mq = some out ∧
        List.Forall₂ (PaddedRel msl mst mq) stories out) ∧
    ((∃ e ∈ stories, ¬ LensLE msl mst mq e) →
      pad_stories stories msl mst mq = none) := by
  constructor
  · intro h
    induction stories with
    | nil => exact ⟨[], rfl, List.Forall₂.nil⟩
    | cons e es ih =>
      have he : LensLE msl mst mq e := h e (List.mem_cons_self e es)
      obtain ⟨out, hout, hrel⟩ := ih (fun x hx => h x (List.mem_cons_of_mem e hx))
      refine ⟨(e.1.map (padSentence msl) ++
          List.replicate (mst - e.1.length) (List.replicate msl PAD_ID),
          e.2.1 ++ List.replicate (mq - e.2.1.length) PAD_ID, e.2.2) :: out,
        ?_, List.Forall₂.cons (paddedRel_holds msl mst mq e he) hrel⟩
      have hpe := pad_example_eq msl mst mq e he
      simp only [pad_stories, mapOpt] at hout ⊢
      simp [hpe, hout]
  · rintro ⟨e, he, hne⟩
    have hnone : pad_example msl mst mq e = none := by
      cases hpe : pad_example msl mst mq e with
      | none => rfl
      | some o => exact absurd (pad_example_lensLE msl mst mq e o hpe) hne
    exact mapOpt_none_of_mem _ stories e he hnone

instance instDecLensLE (msl mst mq : Nat) (e : IEx) :
    Decidable (LensLE msl mst mq e) := by
  unfold LensLE
  infer_instance

/-- Closed instance of the padding specification. -/
theorem pad_stories_spec_witness :
    (∀ e ∈ [(([[1]], [2], 3) : IEx)], LensLE 2 2 2 e) ∧
    (∃ out, pad_stories [([[1]], [2], 3)] 2 2 2 = some out ∧
      List.Forall₂ (PaddedRel 2 2 2) [([[1]], [2], 3)] out) :=
  ⟨by decide, (pad_stories_spec [([[1]], [2], 3)] 2 2 2).1 (by decide)⟩

/-- Python `story[-max_length:]`: for a positive bound, the trailing
`min(len(story), max_length)` elements; since `-0 == 0`, a bound of 0
slices from index 0 and keeps the whole list. -/
def pyTakeLast {α : Type} (l : List α) (n : Nat) : List α :=
  if n = 0 then l else l.drop (l.length - n)

/-- `truncate_stories(stories, max_length)` from `data_helper.py`
line 124. -/
def truncate_stories (stories : List TEx) (max_length : Nat) : List TEx :=
  stories.map (fun e => (pyTakeLast e.1 max_length, e.2.1, e.2.2))

/-- C7 counterexample: with bound 0 the slice `story[-0:]` keeps the whole
story, so a non-empty story does not become its trailing suffix of at most
0 sentences. -/
theorem truncate_stories_cex :
    truncate_stories [([["a".data]], ["q".data], "x".data)] 0 =
      [([["a".data]], ["q".data], "x".data)] ∧
    ¬ (∀ e ∈ truncate_stories [([["a".data]], ["q".data], "x".data)] 0,
        e.1.length = min 1 0) := by
  decide

/-- C7 (amended): for every positive bound, `truncate_stories` replaces
each story by its trailing suffix of the last `min(len, N)` sentences in
original order, leaving question and answer untouched and preserving the
number and order of examples; with bound 0 the story is kept whole. -/
theorem truncate_stories_spec (stories : List TEx) (N : Nat) (h : 1 ≤ N) :
    truncate_stories stories N =
      stories.map (fun e => (e.1.drop (e.1.length - N), e.2.1, e.2.2)) ∧
    ∀ e ∈ stories, (e.1.drop (e.1.length - N)).length = min e.1.length N ∧
      ∃ pre, pre ++ e.1.drop (e.1.length - N) = e.1 := by
  constructor
  · simp [truncate_stories, pyTakeLast, Nat.one_le_iff_ne_zero.mp h]
  · intro e _
    constructor
    · rw [List.length_drop]
      omega
    · exact ⟨e.1.take (e.1.length - N), List.take_append_drop _ e.1⟩

/-- A 200-sentence story for the closed truncation instance. -/
def wStory200 : TEx :=
  ((List.range 200).map (fun i => [[Char.ofNat (65 + i)]]),
    ["q".data], "x".data)

/-- Closed instance of the truncation specification: a 200-sentence story
with bound 70 keeps exactly its last 70 sentences. -/
theorem truncate_stories_spec_witness :
    1 ≤ 70 ∧
    (truncate_stories [wStory200] 70 =
        [wStory200].map (fun e => (e.1.drop (e.1.length - 70), e.2.1, e.2.2)) ∧
      ∀ e ∈ [wStory200], (e.1.drop (e.1.length - 70)).length = min e.1.length 70 ∧
        ∃ pre, pre ++ e.1.drop (e.1.length - 70) = e.1) :=
  ⟨by decide, truncate_stories_spec [wStory200] 70 (by decide)⟩

/-- The dense-array trim of one split in `get_data` (`data_helper.py`
lines 272-296): collect the story, query and answer columns and cut each
to the largest multiple of the batch size below the example count
(`np.array` on a nested list is modelled as the list itself); `none`
models the `ZeroDivisionError` of `dataset_size % 0`. -/
def get_data_trim (split : List IEx) (batch_size : Nat) :
    Option (List (List (List Nat)) × List (List Nat) × List Nat) :=
  if batch_size = 0 then none
  else
    let x := split.map (fun e => e.1)
    let xq := split.map (fun e => e.2.1)
    let y := split.map (fun e => e.2.2)
    let updated_shape := x.length - x.length % batch_size
    some (x.take updated_shape, xq.take updated_shape, y.take updated_shape)

/-- C9 counterexample: with batch size 0 the trim aborts on the modulo
(`ZeroDivisionError`) instead of returning trimmed examples. -/
theorem get_data_trim_cex :
    get_data_trim [([[1]], [2], 3)] 0 = none := by
  decide

/-- C9 (amended): for every positive batch size, the dense-array path
trims a split of `n` examples to its first `n - (n mod b)` examples
(story, query and answer columns alike), preserving their original
relative order; batch size 0 aborts with a division error. -/
theorem get_data_trim_spec (split : List IEx) (b : Nat) (h : 1 ≤ b) :
    get_data_trim split b = some
      ((split.take (split.length - split.length % b)).map (fun e => e.1),
        (split.take (split.length - split.length % b)).map (fun e => e.2.1),
        (split.take (split.length - split.length % b)).map (fun e => e.2.2)) ∧
    (split.take (split.length - split.length % b)).length =
      split.length - split.length % b := by
  constructor
  · simp only [get_data_trim, Nat.one_le_iff_ne_zero.mp h, if_false,
      List.length_map]
    rw [← List.map_take, ← List.map_take, ← List.map_take]
  · rw [List.length_take]
    have := Nat.mod_le split.length b
    omega

/-- 105 concrete examples for the closed batch-trim instance. -/
def wSplit : List IEx := (List.range 105).map (fun i => ([[i]], [i], i))

/-- Closed instance of the batch-trim specification: 105 examples with
batch size 32 are trimmed to exactly 96. -/
theorem get_data_trim_spec_witness :
    1 ≤ 32 ∧
    (get_data_trim wSplit 32 = some
        ((wSplit.take (wSplit.length - wSplit.length % 32)).map (fun e => e.1),
          (wSplit.take (wSplit.length - wSplit.length % 32)).map (fun e => e.2.1),
          (wSplit.take (wSplit.length - wSplit.length % 32)).map (fun e => e.2.2)) ∧
      (wSplit.take (wSplit.length - wSplit.length % 32)).length =
        wSplit.length - wSplit.length % 32) ∧
    wSplit.length - wSplit.length % 32 = 96 :=
  ⟨by decide, get_data_trim_spec wSplit 32 (by decide), by decide⟩
